import Mathlib

/-!
Verification of `src/cli/o3de_material_generator.py` (the O3DE material
generator CLI) against its design specification.

The script is embedded shallowly:

* The filesystem is a list of existing file paths (`FS`); `os.path.exists`,
  `os.rename` and file creation become list operations.
* `os.path.join` is modelled by `pathJoin`, parametrised by the host path
  separator `sep` (`"/"` on POSIX, `"\\"` on Windows); drive-letter handling
  and mixed separators are outside the scope of the claims.
* Python's `getopt.getopt` (the exact stdlib algorithm: short-option
  clusters, long options with unique-prefix matching, stop at the first
  non-option) is modelled by `pygetopt`, specialised to the script's option
  string `"hvf:o:d:a:"` and its long-option table.
* Printing is modelled by accumulating the printed lines in a log;
  `sys.exit` is modelled by the exit code of a `MainResult`.

All definitions are executable and follow the Python source line by line.
-/

/-- Filesystem model: the list of paths of currently existing files.
Only membership is meaningful. -/
abbrev FS := List String

/-- Models `os.path.exists p`. -/
def fsExists (fs : FS) (p : String) : Bool := fs.contains p

/-- Models `os.rename old new`: afterwards `old` is gone and `new` exists
(silently overwriting any file previously at `new`). -/
def fsRename (fs : FS) (old new : String) : FS :=
  new :: fs.filter (fun p => p != old)

/-- Models creating (or truncating) a file at path `p`, as done by
`open(p, 'w')`. -/
def fsWrite (fs : FS) (p : String) : FS := p :: fs

/-- Models `str.startswith` for the arguments used by the script
(plain prefix test). -/
def strStartsWith (s p : String) : Bool := p.data.isPrefixOf s.data

/-- Models `str.endswith` (plain suffix test). -/
def strEndsWith (s p : String) : Bool := s.data.reverse.take p.data.length = p.data.reverse

/-- Models `s[n:]` on a string (drop the first `n` characters). -/
def strDrop (s : String) (n : Nat) : String := String.mk (s.data.drop n)

/-- Models `os.path.join a b` for separator `sep`: if `b` starts with the
separator the result is `b`; otherwise `b` is appended to `a`, inserting the
separator unless `a` is empty or already ends with it.  This is exactly
`posixpath.join` for `sep = "/"`; for `sep = "\\"` it is `ntpath.join`
restricted to drive-less paths. -/
def pathJoin (sep a b : String) : String :=
  if strStartsWith b sep then b
  else if a = "" then a ++ b
  else if strEndsWith a sep then a ++ b
  else a ++ sep ++ b

/-- The `BuildConfig` class of the script: eight category-enable flags, the
input and output base names, the textures directory (defaulted to
`os.getcwd()` by the source; here the default is supplied via `initConfig`)
and the asset root used inside the generated material. -/
structure BuildConfig where
  export_occ : Bool := false
  export_cav : Bool := false
  export_dif : Bool := false
  export_dis : Bool := false
  export_emi : Bool := false
  export_met : Bool := false
  export_ddn : Bool := false
  export_rou : Bool := false
  input_file_name : String := ""
  output_file_name : String := ""
  textures_dir_path : String
  assets_root_path : String := "Assets"
deriving DecidableEq, Repr

/-- Models `BuildConfig()` as constructed at the top of `main`; `cwd` is the value
of `os.getcwd()`. -/
def initConfig (cwd : String) : BuildConfig := { textures_dir_path := cwd }

/-- One entry of the `maps` table in `build`: display name, file-name
suffix, material property key, and whether the category is enabled. -/
structure MapEntry where
  name : String
  suffix : String
  key : String
  enabled : Bool
deriving DecidableEq, Repr

/-- The `maps` list built at the top of `build`, in source order. -/
def mapsOf (c : BuildConfig) : List MapEntry :=
  [⟨"Ambient Occlusion", "ao", "occlusion.diffuseTextureMap", c.export_occ⟩,
   ⟨"Specular Cavity", "cavity", "occlusion.specularTextureMap", c.export_cav⟩,
   ⟨"Diffuse Color", "albedo", "baseColor.textureMap", c.export_dif⟩,
   ⟨"Height", "displacement", "parallax.textureMap", c.export_dis⟩,
   ⟨"Emissive", "emissive", "emissive.textureMap", c.export_emi⟩,
   ⟨"Metallic", "metalness", "metallic.textureMap", c.export_met⟩,
   ⟨"Normal", "normal", "normal.textureMap", c.export_ddn⟩,
   ⟨"Roughness", "roughness", "roughness.textureMap", c.export_rou⟩]

/-- The eight file-name suffixes appearing in the `maps` table. -/
def mapSuffixes : List String :=
  ["ao", "cavity", "albedo", "displacement", "emissive", "metalness",
   "normal", "roughness"]

/-- Models `make_map_name(file_name, map_name)`: the script wraps the concatenation
in a one-argument `os.path.join`, which is the identity. -/
def make_map_name (file_name map_name : String) : String :=
  file_name ++ "_" ++ map_name ++ ".tiff"

/-- Models `make_file_map_name(file_name, map_name)`: the on-disk path of a texture
file under the textures directory. -/
def make_file_map_name (sep : String) (c : BuildConfig) (file_name map_name : String) : String :=
  pathJoin sep c.textures_dir_path (make_map_name file_name map_name)

/-- Models `make_asset_map_name(map_name)`: the in-material path of a texture under
the assets root (before backslash replacement). -/
def make_asset_map_name (sep : String) (c : BuildConfig) (map_name : String) : String :=
  pathJoin sep c.assets_root_path (make_map_name c.output_file_name map_name)

/-- Models `.replace("\\", '/')` (the pattern is a single character, so this
is a character map). -/
def replaceBackslashes (s : String) : String :=
  String.mk (s.data.map (fun ch => if ch = '\\' then '/' else ch))

/-- The path of the source file checked (and renamed away) by
`rename_texture_files` for entry `e`: built from the input base name. -/
def oldPath (sep : String) (c : BuildConfig) (e : MapEntry) : String :=
  make_file_map_name sep c c.input_file_name e.suffix

/-- The destination path of the rename for entry `e`, also the path checked
by `make_material`: built from the output base name. -/
def newPath (sep : String) (c : BuildConfig) (e : MapEntry) : String :=
  make_file_map_name sep c c.output_file_name e.suffix

/-- The `[E]` diagnostic printed by `rename_texture_files` when an enabled
category's file is missing.  Note the source formats `file` with
`config.output_file_name`. -/
def renameMsg (name file m : String) : String :=
  "    [E] The " ++ name ++ " Map was enabled, but the file " ++ file ++ "_" ++ m ++
    ".tiff do not exists. The file was not renamed."

/-- The `[E]` diagnostic printed by `make_material` when an enabled
category's file is missing at assembly time. -/
def materialMsg (name file m : String) : String :=
  "    [E] The " ++ name ++ " Map was enabled, but the file " ++ file ++ "_" ++ m ++
    ".tiff do not exists. The file was not added in the material."

/-- The `for name, m, _, enabled in maps` loop inside
`rename_texture_files`: renames each enabled category's file when it exists,
otherwise prints the diagnostic; returns the final filesystem and the
printed lines. -/
def renameLoop (sep : String) (c : BuildConfig) : List MapEntry → FS → FS × List String
  | [], fs => (fs, [])
  | e :: rest, fs =>
    if e.enabled then
      if fsExists fs (oldPath sep c e) then
        renameLoop sep c rest (fsRename fs (oldPath sep c e) (newPath sep c e))
      else
        let r := renameLoop sep c rest fs
        (r.1, renameMsg e.name c.output_file_name e.suffix :: r.2)
    else renameLoop sep c rest fs

/-- Models `rename_texture_files()`: skips (and normalises the output base name)
when no distinct output base was supplied, otherwise runs the rename loop.
Returns the (possibly updated) config, the filesystem and the printed
lines. -/
def rename_texture_files (sep : String) (maps : List MapEntry) (c : BuildConfig)
    (verbose : Bool) (fs : FS) : BuildConfig × FS × List String :=
  if c.output_file_name = "" ∨ c.output_file_name = c.input_file_name then
    ({ c with output_file_name := c.input_file_name }, fs,
      if verbose then ["    [V] Skipping texture files renaming."] else [])
  else
    let r := renameLoop sep c maps fs
    (c, r.1,
      (if verbose then ["    [V] Renaming texture files..."] else []) ++ r.2 ++
        (if verbose then ["    [V] Texture files renamed."] else []))

/-- The `for name, m, key, enabled in maps` loop inside `make_material`:
collects `propertyValues` entries (in source order) for the enabled
categories whose output-named file exists, and the diagnostics for the
others. -/
def mmLoop (sep : String) (c : BuildConfig) (fs : FS) :
    List MapEntry → List (String × String) × List String
  | [] => ([], [])
  | e :: rest =>
    let r := mmLoop sep c fs rest
    if e.enabled then
      if fsExists fs (newPath sep c e) then
        ((e.key, replaceBackslashes (make_asset_map_name sep c e.suffix)) :: r.1, r.2)
      else (r.1, materialMsg e.name c.output_file_name e.suffix :: r.2)
    else r

/-- The JSON material document assembled by `build`: the two constant
top-level fields plus the `propertyValues` mapping (an association list in
insertion order, mirroring a Python dict). -/
structure Material where
  materialType : String
  materialTypeVersion : Nat
  propertyValues : List (String × String)
deriving DecidableEq, Repr

/-- The result of `build`: the config after output-name resolution, the
filesystem after renames and the material write, the assembled document,
the path it was written to, and everything printed. -/
structure BuildResult where
  config : BuildConfig
  fs : FS
  material : Material
  outPath : String
  log : List String
deriving DecidableEq, Repr

/-- Models `build(config, verbose)`: rename step, assembly step, then the JSON dump
of the material to `{textures_dir}/{output_base}.material`. -/
def build (sep : String) (c : BuildConfig) (verbose : Bool) (fs : FS) : BuildResult :=
  let maps := mapsOf c
  let log0 := if verbose then ["[V] Building material file..."] else []
  let r := rename_texture_files sep maps c verbose fs
  let c' := r.1
  let fs' := r.2.1
  let mm := mmLoop sep c' fs' maps
  let material : Material :=
    { materialType := "Materials/Types/StandardPBR.materialtype",
      materialTypeVersion := 4,
      propertyValues := mm.1 }
  let outPath := pathJoin sep c'.textures_dir_path (c'.output_file_name ++ ".material")
  { config := c',
    fs := fsWrite fs' outPath,
    material := material,
    outPath := outPath,
    log := log0 ++ r.2.2 ++ mm.2 ++
      (if verbose then ["[V] Material file build process complete."] else []) }

/-- Models `setup_default(config)`: enables the five default categories. -/
def setup_default (c : BuildConfig) : BuildConfig :=
  { c with export_dif := true, export_ddn := true, export_occ := true,
           export_met := true, export_rou := true }

/-- Models `setup_all(config)`: the default set plus emissive, cavity and
displacement. -/
def setup_all (c : BuildConfig) : BuildConfig :=
  { setup_default c with export_emi := true, export_cav := true, export_dis := true }

/-- One step of the option loop in `main`, for every option other than `-h`
and `-v` (which are handled by `processOpts` directly); the trailing
`else c` mirrors the absent `else` branch of the source's `elif` chain. -/
def applyOpt (c : BuildConfig) (opt arg : String) : BuildConfig :=
  if opt = "-f" then { c with input_file_name := arg }
  else if opt = "-o" then { c with output_file_name := arg }
  else if opt = "-d" then { c with textures_dir_path := arg }
  else if opt = "-a" then { c with assets_root_path := arg }
  else if opt = "--occ" then { c with export_occ := true }
  else if opt = "--cav" then { c with export_cav := true }
  else if opt = "--dif" then { c with export_dif := true }
  else if opt = "--dis" then { c with export_dis := true }
  else if opt = "--emi" then { c with export_emi := true }
  else if opt = "--met" then { c with export_met := true }
  else if opt = "--ddn" then { c with export_ddn := true }
  else if opt = "--rou" then { c with export_rou := true }
  else if opt = "--default" then setup_default c
  else if opt = "--all" then setup_all c
  else c

/-- The `for opt, arg in opts` loop of `main`.  Returns `none` when `-h` is
met (the script prints usage and exits 0 there), otherwise the final config
and verbose flag. -/
def processOpts : BuildConfig → Bool → List (String × String) → Option (BuildConfig × Bool)
  | c, v, [] => some (c, v)
  | c, v, (opt, arg) :: rest =>
    if opt = "-h" then none
    else if opt = "-v" then processOpts c true rest
    else processOpts (applyOpt c opt arg) v rest

/-- The short-option string passed to `getopt.getopt`. -/
def shortoptsStr : String := "hvf:o:d:a:"

/-- The long-option table passed to `getopt.getopt`. -/
def longoptsList : List String :=
  ["occ", "cav", "dif", "dis", "emi", "met", "ddn", "rou", "default", "all"]

/-- Models `getopt.short_has_arg`: scans the short-option string for `opt`; an
option takes an argument when a `:` follows it.  Unknown options raise
`GetoptError` (modelled by `Except.error`). -/
def short_has_arg (opt : Char) : List Char → Except String Bool
  | [] => .error "option not recognized"
  | ch :: rest =>
    if opt = ch ∧ ch ≠ ':' then .ok (rest.head? = some ':')
    else short_has_arg opt rest

/-- Models `getopt.do_shorts`: consumes a cluster of short options (the token after
the leading `-`), possibly taking the next argument-vector element as an
option argument. -/
def do_shorts : List Char → List String → Except String (List (String × String) × List String)
  | [], args => .ok ([], args)
  | ch :: rest, args =>
    match short_has_arg ch shortoptsStr.data with
    | .error e => .error e
    | .ok true =>
      if rest.isEmpty then
        match args with
        | [] => .error "option requires argument"
        | a :: args' => .ok ([("-" ++ String.mk [ch], a)], args')
      else .ok ([("-" ++ String.mk [ch], String.mk rest)], args)
    | .ok false =>
      match do_shorts rest args with
      | .error e => .error e
      | .ok (opts, args') => .ok (("-" ++ String.mk [ch], "") :: opts, args')

/-- Models `getopt.long_has_args`: unique-prefix matching of a long option against
the long-option table; returns whether it takes an argument and its
canonical spelling. -/
def long_has_args (opt : String) (longopts : List String) : Except String (Bool × String) :=
  let possibilities := longopts.filter (fun o => strStartsWith o opt)
  if possibilities = [] then .error "option not recognized"
  else if possibilities.contains opt then .ok (false, opt)
  else if possibilities.contains (opt ++ "=") then .ok (true, opt)
  else
    match possibilities with
    | [unique] =>
      if strEndsWith unique "=" then .ok (true, String.mk (unique.data.dropLast))
      else .ok (false, unique)
    | _ => .error "option not a unique prefix"

/-- Splits a long-option token at its first `=`, as `opt.index('=')` does;
`none` when there is no `=`. -/
def splitEq (s : String) : String × Option String :=
  match s.data.findIdx? (fun ch => ch = '=') with
  | none => (s, none)
  | some i => (String.mk (s.data.take i), some (String.mk (s.data.drop (i + 1))))

/-- Models `getopt.do_longs`: one long-option token (after the leading `--`). -/
def do_longs (opt : String) (args : List String) :
    Except String (List (String × String) × List String) :=
  let sp := splitEq opt
  match long_has_args sp.1 longoptsList with
  | .error e => .error e
  | .ok (has_arg, o) =>
    if has_arg then
      match sp.2 with
      | some a => .ok ([("--" ++ o, a)], args)
      | none =>
        match args with
        | [] => .error "option requires argument"
        | a :: args' => .ok ([("--" ++ o, a)], args')
    else
      match sp.2 with
      | some _ => .error "option must not have an argument"
      | none => .ok ([("--" ++ o, "")], args)

/-- The `while` loop of `getopt.getopt`: processes leading option tokens and
stops at the first non-option, at a lone `-`, or after `--`.  `fuel` bounds
the iteration count; each iteration consumes at least the head token, so
`args.length` is always enough fuel. -/
def getoptLoop : Nat → List String → Except String (List (String × String) × List String)
  | 0, args => .ok ([], args)
  | fuel + 1, args =>
    match args with
    | [] => .ok ([], [])
    | a :: rest =>
      if ¬ (strStartsWith a "-" = true) ∨ a = "-" then .ok ([], a :: rest)
      else if a = "--" then .ok ([], rest)
      else if strStartsWith a "--" then
        match do_longs (strDrop a 2) rest with
        | .error e => .error e
        | .ok (newopts, args') =>
          match getoptLoop fuel args' with
          | .error e => .error e
          | .ok (opts, args'') => .ok (newopts ++ opts, args'')
      else
        match do_shorts (strDrop a 1).data rest with
        | .error e => .error e
        | .ok (newopts, args') =>
          match getoptLoop fuel args' with
          | .error e => .error e
          | .ok (opts, args'') => .ok (newopts ++ opts, args'')

/-- Models `getopt.getopt(argv, "hvf:o:d:a:", longopts)` as called by `main`. -/
def pygetopt (args : List String) : Except String (List (String × String) × List String) :=
  getoptLoop args.length args

/-- What `help()` prints (the logo line). -/
def helpLog : List String := ["O3DE Material Generator for"]

/-- What `error()` prints (its own message; the `help(True)` call after it
prints nothing). -/
def errorLog : List String := ["Invalid arguments passed to the script.\n"]

/-- The observable outcome of one invocation: exit code, final filesystem,
the material files written (path and parsed content), and every printed
line. -/
structure MainResult where
  exitCode : Nat
  fs : FS
  written : List (String × Material)
  log : List String
deriving DecidableEq, Repr

/-- Models `main` after a successful `getopt` call: the empty-options help path,
the option loop, the missing `-f` check, then `build`. -/
def runFromOpts (sep cwd : String) (opts : List (String × String)) (fs : FS) : MainResult :=
  if opts.isEmpty then ⟨0, fs, [], helpLog⟩
  else
    match processOpts (initConfig cwd) false opts with
    | none => ⟨0, fs, [], helpLog⟩
    | some (c, verbose) =>
      if c.input_file_name = "" then ⟨1, fs, [], errorLog⟩
      else
        let b := build sep c verbose fs
        ⟨0, b.fs, [(b.outPath, b.material)], b.log⟩

/-- Models `main(argv)`: `getopt` followed by `runFromOpts`; a `GetoptError` is the
usage-error path (message plus exit 1). -/
def mainRun (sep cwd : String) (argv : List String) (fs : FS) : MainResult :=
  match pygetopt argv with
  | .error _ => ⟨1, fs, [], errorLog⟩
  | .ok (opts, _) => runFromOpts sep cwd opts fs

/-- The fixed trailing part `_{suffix}.tiff` of a texture file name. -/
def tailOf (m : String) : String := "_" ++ m ++ ".tiff"

/-- The eight texture map categories, for stating properties about the
enable flags uniformly. -/
inductive MapCat
  | occ | cav | dif | dis | emi | met | ddn | rou
deriving DecidableEq, Repr

/-- The enable flag of `BuildConfig` belonging to a category. -/
def exportFlag (c : BuildConfig) : MapCat → Bool
  | .occ => c.export_occ
  | .cav => c.export_cav
  | .dif => c.export_dif
  | .dis => c.export_dis
  | .emi => c.export_emi
  | .met => c.export_met
  | .ddn => c.export_ddn
  | .rou => c.export_rou

/-- The long flag that enables a single category. -/
def catOpt : MapCat → String
  | .occ => "--occ"
  | .cav => "--cav"
  | .dif => "--dif"
  | .dis => "--dis"
  | .emi => "--emi"
  | .met => "--met"
  | .ddn => "--ddn"
  | .rou => "--rou"

/-- The category set enabled by `--default` (per `setup_default`). -/
def defaultSet : MapCat → Bool
  | .dif | .ddn | .occ | .met | .rou => true
  | _ => false

/-- The ten category-enabling long flags of the CLI. -/
def flagOpts : List String :=
  ["--occ", "--cav", "--dif", "--dis", "--emi", "--met", "--ddn", "--rou",
   "--default", "--all"]

/-- The set of categories a given category-enabling flag turns on. -/
def optEnables (opt : String) (cat : MapCat) : Bool :=
  if opt = "--default" then defaultSet cat
  else if opt = "--all" then true
  else opt == catOpt cat

/-- A concrete configuration exercising the absolute-path aliasing of
`os.path.join`: with an input base name starting with the separator, the
source and destination paths of a rename coincide. -/
def aliasConfig : BuildConfig :=
  { export_occ := true, input_file_name := "/x", output_file_name := "x",
    textures_dir_path := "/" }

/-- The ambient-occlusion entry of the map table with its flag enabled. -/
def aoEntry : MapEntry :=
  ⟨"Ambient Occlusion", "ao", "occlusion.diffuseTextureMap", true⟩

/-- The specular-cavity entry of the map table with its flag enabled. -/
def cavEntry : MapEntry :=
  ⟨"Specular Cavity", "cavity", "occlusion.specularTextureMap", true⟩

/-- The diffuse-color entry of the map table with its flag enabled. -/
def difEntry : MapEntry := ⟨"Diffuse Color", "albedo", "baseColor.textureMap", true⟩

/-- A concrete configuration with a distinct output base name and the
ambient-occlusion category enabled. -/
def moveConfig : BuildConfig :=
  { export_occ := true, input_file_name := "in", output_file_name := "out",
    textures_dir_path := "/t" }

/-- Like `moveConfig` with the specular-cavity category also enabled. -/
def moveConfig2 : BuildConfig :=
  { export_occ := true, export_cav := true, input_file_name := "in",
    output_file_name := "out", textures_dir_path := "/t" }

/-- A concrete configuration with a distinct output base name and the
diffuse-color category enabled. -/
def c10Config : BuildConfig :=
  { export_dif := true, input_file_name := "a", output_file_name := "b",
    textures_dir_path := "/t" }

/-- The configuration produced by processing `-f base --dif` (no output
base supplied). -/
def c4Config : BuildConfig :=
  { export_dif := true, input_file_name := "base", output_file_name := "",
    textures_dir_path := "/t" }

/-- Whether a printed line is one of the `[V]`-prefixed verbose diagnostics
(the source prints them bare or indented by four spaces). -/
def isVerboseLine (l : String) : Bool :=
  strStartsWith l "[V]" || strStartsWith l "    [V]"

/-! ## Filesystem lemmas -/

theorem fsExists_iff {fs : FS} {p : String} : fsExists fs p = true ↔ p ∈ fs := by
  simp [fsExists]

theorem fsExists_fsRename {fs : FS} {o n p : String} :
    fsExists (fsRename fs o n) p = true ↔ p = n ∨ (fsExists fs p = true ∧ p ≠ o) := by
  simp [fsRename, fsExists_iff, List.mem_filter]

theorem fsExists_fsWrite {fs : FS} {q p : String} :
    fsExists (fsWrite fs q) p = true ↔ p = q ∨ fsExists fs p = true := by
  simp [fsWrite, fsExists_iff]

/-! ## Path disjointness machinery -/

theorem pathJoin_eq_append (sep a b : String) : ∃ g, pathJoin sep a b = g ++ b := by
  unfold pathJoin
  split
  · exact ⟨"", rfl⟩
  split
  · exact ⟨a, rfl⟩
  split
  · exact ⟨a, rfl⟩
  · exact ⟨a ++ sep, rfl⟩

theorem string_append_tail_clash {A B s t : String} (h : A ++ s = B ++ t) :
    s.data <:+ t.data ∨ t.data <:+ s.data := by
  have hd : A.data ++ s.data = B.data ++ t.data := by
    rw [← String.data_append, ← String.data_append, h]
  have h1 : s.data <:+ B.data ++ t.data := hd ▸ List.suffix_append A.data s.data
  have h2 : t.data <:+ B.data ++ t.data := List.suffix_append B.data t.data
  have h1' := List.reverse_prefix.mpr h1
  have h2' := List.reverse_prefix.mpr h2
  have := List.prefix_or_prefix_of_prefix h1' h2'
  rcases this with h | h
  · exact Or.inl (List.reverse_prefix.mp h)
  · exact Or.inr (List.reverse_prefix.mp h)

theorem pathJoin_tail_ne {s t : String} (sep d d' b b' : String)
    (h1 : ¬ s.data <:+ t.data) (h2 : ¬ t.data <:+ s.data) :
    pathJoin sep d (b ++ s) ≠ pathJoin sep d' (b' ++ t) := by
  obtain ⟨g, hg⟩ := pathJoin_eq_append sep d (b ++ s)
  obtain ⟨g', hg'⟩ := pathJoin_eq_append sep d' (b' ++ t)
  intro h
  rw [hg, hg', ← String.append_assoc, ← String.append_assoc] at h
  rcases string_append_tail_clash h with hc | hc
  exacts [h1 hc, h2 hc]

theorem make_map_name_eq_tail (fn m : String) :
    make_map_name fn m = fn ++ tailOf m := by
  simp [make_map_name, tailOf, String.append_assoc]

theorem tails_no_clash :
    ∀ m ∈ mapSuffixes, ∀ m' ∈ mapSuffixes, m ≠ m' →
      ¬ (tailOf m).data <:+ (tailOf m').data := by
  decide

theorem material_tail_no_clash :
    ∀ m ∈ mapSuffixes,
      ¬ (tailOf m).data <:+ (".material" : String).data ∧
      ¬ ((".material" : String).data <:+ (tailOf m).data) := by
  decide

theorem make_file_map_name_ne {m m' : String} (sep : String) (c c' : BuildConfig)
    (b b' : String) (hm : m ∈ mapSuffixes) (hm' : m' ∈ mapSuffixes) (hne : m ≠ m') :
    make_file_map_name sep c b m ≠ make_file_map_name sep c' b' m' := by
  rw [make_file_map_name, make_file_map_name, make_map_name_eq_tail, make_map_name_eq_tail]
  exact pathJoin_tail_ne sep _ _ b b' (tails_no_clash m hm m' hm' hne)
    (tails_no_clash m' hm' m hm (Ne.symm hne))

theorem make_file_map_name_ne_material {m : String} (sep : String) (c : BuildConfig)
    (b : String) (d ob : String) (hm : m ∈ mapSuffixes) :
    make_file_map_name sep c b m ≠ pathJoin sep d (ob ++ ".material") := by
  rw [make_file_map_name, make_map_name_eq_tail]
  exact pathJoin_tail_ne sep _ _ b ob (material_tail_no_clash m hm).1
    (material_tail_no_clash m hm).2

/-! ## Facts about the map table -/

theorem mapsOf_suffix_mem {c : BuildConfig} {e : MapEntry} (he : e ∈ mapsOf c) :
    e.suffix ∈ mapSuffixes := by
  simp only [mapsOf, List.mem_cons, List.not_mem_nil, or_false] at he
  rcases he with rfl | rfl | rfl | rfl | rfl | rfl | rfl | rfl <;> simp [mapSuffixes]

theorem mapsOf_pairwise_suffix {c : BuildConfig} :
    (mapsOf c).Pairwise (fun a b => a.suffix ≠ b.suffix) := by
  simp [mapsOf]

theorem mapsOf_suffix_inj {c : BuildConfig} {e e' : MapEntry}
    (he : e ∈ mapsOf c) (he' : e' ∈ mapsOf c) (h : e.suffix = e'.suffix) : e = e' := by
  simp only [mapsOf, List.mem_cons, List.not_mem_nil, or_false] at he he'
  rcases he with rfl | rfl | rfl | rfl | rfl | rfl | rfl | rfl <;>
    rcases he' with rfl | rfl | rfl | rfl | rfl | rfl | rfl | rfl <;> simp_all

theorem mapsOf_key_inj {c : BuildConfig} {e e' : MapEntry}
    (he : e ∈ mapsOf c) (he' : e' ∈ mapsOf c) (h : e.key = e'.key) : e = e' := by
  simp only [mapsOf, List.mem_cons, List.not_mem_nil, or_false] at he he'
  rcases he with rfl | rfl | rfl | rfl | rfl | rfl | rfl | rfl <;>
    rcases he' with rfl | rfl | rfl | rfl | rfl | rfl | rfl | rfl <;> simp_all

/-! ## Rename loop lemmas -/

theorem bool_eq_of_iff {a b : Bool} (h : a = true ↔ b = true) : a = b := by
  cases a <;> cases b <;> simp_all

theorem fsExists_fsRename_ne {fs : FS} {o n p : String} (h1 : p ≠ o) (h2 : p ≠ n) :
    fsExists (fsRename fs o n) p = fsExists fs p := by
  apply bool_eq_of_iff
  rw [fsExists_fsRename]
  simp [h1, h2]

theorem fsExists_fsRename_new {fs : FS} {o n : String} :
    fsExists (fsRename fs o n) n = true :=
  fsExists_fsRename.mpr (Or.inl rfl)

theorem fsExists_fsRename_old {fs : FS} {o n : String} (h : o ≠ n) :
    fsExists (fsRename fs o n) o = false := by
  cases hb : fsExists (fsRename fs o n) o with
  | false => rfl
  | true =>
    rcases fsExists_fsRename.mp hb with h' | ⟨_, h'⟩
    · exact absurd h' h
    · exact absurd rfl h'

theorem fsExists_fsRename_absent {fs : FS} {o n p : String}
    (h1 : fsExists fs p = false) (h2 : p ≠ n) :
    fsExists (fsRename fs o n) p = false := by
  cases hb : fsExists (fsRename fs o n) p with
  | false => rfl
  | true =>
    rcases fsExists_fsRename.mp hb with h' | ⟨h', _⟩
    · exact absurd h' h2
    · rw [h1] at h'; cases h'

theorem renameLoop_preserve {sep : String} {c : BuildConfig} {p : String}
    (l : List MapEntry) (fs : FS)
    (h : ∀ e' ∈ l, e'.enabled = true → p ≠ oldPath sep c e' ∧ p ≠ newPath sep c e') :
    fsExists (renameLoop sep c l fs).1 p = fsExists fs p := by
  induction l generalizing fs with
  | nil => rfl
  | cons e rest ih =>
    have hrest : ∀ e' ∈ rest, e'.enabled = true →
        p ≠ oldPath sep c e' ∧ p ≠ newPath sep c e' :=
      fun e' hm => h e' (List.mem_cons_of_mem _ hm)
    simp only [renameLoop]
    by_cases hen : e.enabled = true
    · obtain ⟨h1, h2⟩ := h e (List.mem_cons_self e rest) hen
      rw [if_pos hen]
      by_cases hex : fsExists fs (oldPath sep c e) = true
      · rw [if_pos hex, ih _ hrest, fsExists_fsRename_ne h1 h2]
      · rw [if_neg hex]
        exact ih _ hrest
    · rw [if_neg hen]
      exact ih _ hrest

theorem renameLoop_moves {sep : String} {c : BuildConfig} {e : MapEntry}
    (l : List MapEntry) (fs : FS)
    (hpw : l.Pairwise (fun a b => a.suffix ≠ b.suffix))
    (hdisj : ∀ e' ∈ l, e'.suffix ≠ e.suffix →
      oldPath sep c e ≠ oldPath sep c e' ∧ oldPath sep c e ≠ newPath sep c e' ∧
      newPath sep c e ≠ oldPath sep c e' ∧ newPath sep c e ≠ newPath sep c e')
    (he : e ∈ l) (hen : e.enabled = true)
    (hex : fsExists fs (oldPath sep c e) = true)
    (hne : oldPath sep c e ≠ newPath sep c e) :
    fsExists (renameLoop sep c l fs).1 (newPath sep c e) = true ∧
    fsExists (renameLoop sep c l fs).1 (oldPath sep c e) = false := by
  induction l generalizing fs with
  | nil => cases he
  | cons e0 rest ih =>
    rw [List.pairwise_cons] at hpw
    obtain ⟨hhead, hpwrest⟩ := hpw
    have hdrest : ∀ e' ∈ rest, e'.suffix ≠ e.suffix →
        oldPath sep c e ≠ oldPath sep c e' ∧ oldPath sep c e ≠ newPath sep c e' ∧
        newPath sep c e ≠ oldPath sep c e' ∧ newPath sep c e ≠ newPath sep c e' :=
      fun e' hm => hdisj e' (List.mem_cons_of_mem _ hm)
    rcases List.mem_cons.mp he with rfl | hmem
    · simp only [renameLoop, if_pos hen, if_pos hex]
      have hpres : ∀ p, p = newPath sep c e ∨ p = oldPath sep c e →
          fsExists (renameLoop sep c rest
              (fsRename fs (oldPath sep c e) (newPath sep c e))).1 p
            = fsExists (fsRename fs (oldPath sep c e) (newPath sep c e)) p := by
        intro p hp
        apply renameLoop_preserve
        intro e' hm' _
        have hsne : e'.suffix ≠ e.suffix := Ne.symm (hhead e' hm')
        obtain ⟨d1, d2, d3, d4⟩ := hdrest e' hm' hsne
        rcases hp with rfl | rfl
        · exact ⟨d3, d4⟩
        · exact ⟨d1, d2⟩
      constructor
      · rw [hpres _ (Or.inl rfl)]
        exact fsExists_fsRename_new
      · rw [hpres _ (Or.inr rfl)]
        exact fsExists_fsRename_old hne
    · have hsne0 : e0.suffix ≠ e.suffix := hhead e hmem
      obtain ⟨d1, d2, d3, d4⟩ := hdisj e0 (List.mem_cons_self e0 rest) hsne0
      simp only [renameLoop]
      by_cases hen0 : e0.enabled = true
      · rw [if_pos hen0]
        by_cases hex0 : fsExists fs (oldPath sep c e0) = true
        · rw [if_pos hex0]
          exact ih _ hpwrest hdrest hmem
            (by rw [fsExists_fsRename_ne d1 d2]; exact hex)
        · rw [if_neg hex0]
          exact ih _ hpwrest hdrest hmem hex
      · rw [if_neg hen0]
        exact ih _ hpwrest hdrest hmem hex

theorem renameLoop_msg {sep : String} {c : BuildConfig} {e : MapEntry}
    (l : List MapEntry) (fs : FS)
    (hpw : l.Pairwise (fun a b => a.suffix ≠ b.suffix))
    (hdisj : ∀ e' ∈ l, e'.suffix ≠ e.suffix → newPath sep c e' ≠ oldPath sep c e)
    (he : e ∈ l) (hen : e.enabled = true)
    (hnex : fsExists fs (oldPath sep c e) = false) :
    renameMsg e.name c.output_file_name e.suffix ∈ (renameLoop sep c l fs).2 := by
  induction l generalizing fs with
  | nil => cases he
  | cons e0 rest ih =>
    rw [List.pairwise_cons] at hpw
    obtain ⟨hhead, hpwrest⟩ := hpw
    have hdrest : ∀ e' ∈ rest, e'.suffix ≠ e.suffix →
        newPath sep c e' ≠ oldPath sep c e :=
      fun e' hm => hdisj e' (List.mem_cons_of_mem _ hm)
    rcases List.mem_cons.mp he with rfl | hmem
    · simp only [renameLoop, if_pos hen]
      rw [if_neg (by rw [hnex]; exact Bool.false_ne_true)]
      exact List.mem_cons_self _ _
    · have hsne0 : e0.suffix ≠ e.suffix := hhead e hmem
      simp only [renameLoop]
      by_cases hen0 : e0.enabled = true
      · rw [if_pos hen0]
        by_cases hex0 : fsExists fs (oldPath sep c e0) = true
        · rw [if_pos hex0]
          exact ih _ hpwrest hdrest hmem
            (fsExists_fsRename_absent hnex (Ne.symm (hdisj e0 (List.mem_cons_self e0 rest) hsne0)))
        · rw [if_neg hex0]
          exact List.mem_cons_of_mem _ (ih _ hpwrest hdrest hmem hnex)
      · rw [if_neg hen0]
        exact ih _ hpwrest hdrest hmem hnex

/-! ## Material assembly loop lemmas -/

theorem mmLoop_pv_mem {sep : String} {c : BuildConfig} {fs : FS} (l : List MapEntry)
    (k x : String) :
    (k, x) ∈ (mmLoop sep c fs l).1 ↔
      ∃ e, e ∈ l ∧ e.enabled = true ∧ fsExists fs (newPath sep c e) = true ∧
        k = e.key ∧ x = replaceBackslashes (make_asset_map_name sep c e.suffix) := by
  induction l with
  | nil => simp [mmLoop]
  | cons e0 rest ih =>
    simp only [mmLoop]
    by_cases hen : e0.enabled = true
    · by_cases hex : fsExists fs (newPath sep c e0) = true
      · rw [if_pos hen, if_pos hex]
        simp only [List.mem_cons, ih, Prod.mk.injEq]
        constructor
        · rintro (⟨rfl, rfl⟩ | ⟨e, hm, h1, h2, h3, h4⟩)
          · exact ⟨e0, Or.inl rfl, hen, hex, rfl, rfl⟩
          · exact ⟨e, Or.inr hm, h1, h2, h3, h4⟩
        · rintro ⟨e, rfl | hm, h1, h2, h3, h4⟩
          · exact Or.inl ⟨h3, h4⟩
          · exact Or.inr ⟨e, hm, h1, h2, h3, h4⟩
      · rw [if_pos hen, if_neg hex]
        simp only [ih]
        constructor
        · rintro ⟨e, hm, h1, h2, h3, h4⟩
          exact ⟨e, List.mem_cons_of_mem _ hm, h1, h2, h3, h4⟩
        · rintro ⟨e, hm, h1, h2, h3, h4⟩
          rcases List.mem_cons.mp hm with rfl | hm'
          · rw [h2] at hex; cases hex rfl
          · exact ⟨e, hm', h1, h2, h3, h4⟩
    · rw [if_neg hen]
      simp only [ih]
      constructor
      · rintro ⟨e, hm, h1, h2, h3, h4⟩
        exact ⟨e, List.mem_cons_of_mem _ hm, h1, h2, h3, h4⟩
      · rintro ⟨e, hm, h1, h2, h3, h4⟩
        rcases List.mem_cons.mp hm with rfl | hm'
        · exact absurd h1 hen
        · exact ⟨e, hm', h1, h2, h3, h4⟩

theorem mmLoop_msg_mem {sep : String} {c : BuildConfig} {fs : FS} {e : MapEntry}
    (l : List MapEntry) (he : e ∈ l) (hen : e.enabled = true)
    (hnex : fsExists fs (newPath sep c e) = false) :
    materialMsg e.name c.output_file_name e.suffix ∈ (mmLoop sep c fs l).2 := by
  induction l with
  | nil => cases he
  | cons e0 rest ih =>
    simp only [mmLoop]
    rcases List.mem_cons.mp he with rfl | hmem
    · rw [if_pos hen, if_neg (by rw [hnex]; exact Bool.false_ne_true)]
      exact List.mem_cons_self _ _
    · by_cases hen0 : e0.enabled = true
      · by_cases hex0 : fsExists fs (newPath sep c e0) = true
        · rw [if_pos hen0, if_pos hex0]
          exact ih hmem
        · rw [if_pos hen0, if_neg hex0]
          exact List.mem_cons_of_mem _ (ih hmem)
      · rw [if_neg hen0]
        exact ih hmem

/-! ## Option-loop lemmas -/

theorem processOpts_none_of_h {c : BuildConfig} {v : Bool} {opts : List (String × String)}
    (h : "-h" ∈ opts.map Prod.fst) : processOpts c v opts = none := by
  induction opts generalizing c v with
  | nil => cases h
  | cons o rest ih =>
    obtain ⟨opt, arg⟩ := o
    simp only [List.map_cons, List.mem_cons] at h
    by_cases ho : opt = "-h"
    · simp [processOpts, ho]
    · have h' : "-h" ∈ rest.map Prod.fst := h.resolve_left (fun he => ho he.symm)
      simp only [processOpts]
      rw [if_neg ho]
      by_cases hv : opt = "-v"
      · rw [if_pos hv]; exact ih h'
      · rw [if_neg hv]; exact ih h'

theorem processOpts_fst_indep (opts : List (String × String)) (c : BuildConfig) (v w : Bool) :
    (processOpts c v opts).map Prod.fst = (processOpts c w opts).map Prod.fst := by
  induction opts generalizing c v w with
  | nil => rfl
  | cons o rest ih =>
    obtain ⟨opt, arg⟩ := o
    simp only [processOpts]
    by_cases ho : opt = "-h"
    · rw [if_pos ho, if_pos ho]
    · rw [if_neg ho, if_neg ho]
      by_cases hv : opt = "-v"
      · rw [if_pos hv, if_pos hv]
      · rw [if_neg hv, if_neg hv]; exact ih _ _ _

theorem processOpts_insert_v (pre post : List (String × String)) (c : BuildConfig) (v : Bool) :
    (processOpts c v (pre ++ ("-v", "") :: post)).map Prod.fst
      = (processOpts c v (pre ++ post)).map Prod.fst := by
  induction pre generalizing c v with
  | nil =>
    simp only [List.nil_append, processOpts, if_true]
    exact processOpts_fst_indep post c true v
  | cons o pre' ih =>
    obtain ⟨opt, arg⟩ := o
    simp only [List.cons_append, processOpts]
    by_cases ho : opt = "-h"
    · rw [if_pos ho, if_pos ho]
    · rw [if_neg ho, if_neg ho]
      by_cases hv : opt = "-v"
      · rw [if_pos hv, if_pos hv]; exact ih _ _
      · rw [if_neg hv, if_neg hv]; exact ih _ _

/-! ## Verbose flag only affects printing -/

theorem rtf_effects_indep (sep : String) (maps : List MapEntry) (c : BuildConfig)
    (v : Bool) (fs : FS) :
    (rename_texture_files sep maps c v fs).1 = (rename_texture_files sep maps c false fs).1 ∧
    (rename_texture_files sep maps c v fs).2.1
      = (rename_texture_files sep maps c false fs).2.1 := by
  by_cases hc : c.output_file_name = "" ∨ c.output_file_name = c.input_file_name
  · simp [rename_texture_files, hc]
  · simp [rename_texture_files, hc]

theorem build_effects_indep (sep : String) (c : BuildConfig) (v : Bool) (fs : FS) :
    (build sep c v fs).config = (build sep c false fs).config ∧
    (build sep c v fs).fs = (build sep c false fs).fs ∧
    (build sep c v fs).material = (build sep c false fs).material ∧
    (build sep c v fs).outPath = (build sep c false fs).outPath := by
  obtain ⟨h1, h2⟩ := rtf_effects_indep sep (mapsOf c) c v fs
  simp only [build]
  rw [h1, h2]
  exact ⟨rfl, rfl, rfl, rfl⟩

/-! ## Claim theorems -/

/-- C5: starting from the default (all-disabled) config, `--default` enables
exactly the five categories dif, ddn, occ, met, rou and leaves emi, cav and
dis disabled; and `--all` produces the same config as processing all eight
individual category flags. -/
theorem C5_default_and_all_sets (cwd : String) :
    (setup_default (initConfig cwd)).export_dif = true ∧
    (setup_default (initConfig cwd)).export_ddn = true ∧
    (setup_default (initConfig cwd)).export_occ = true ∧
    (setup_default (initConfig cwd)).export_met = true ∧
    (setup_default (initConfig cwd)).export_rou = true ∧
    (setup_default (initConfig cwd)).export_emi = false ∧
    (setup_default (initConfig cwd)).export_cav = false ∧
    (setup_default (initConfig cwd)).export_dis = false ∧
    setup_all (initConfig cwd) =
      List.foldl (fun c o => applyOpt c o "") (initConfig cwd)
        ["--occ", "--cav", "--dif", "--dis", "--emi", "--met", "--ddn", "--rou"] :=
  ⟨rfl, rfl, rfl, rfl, rfl, rfl, rfl, rfl, rfl⟩

/-- C2: whenever the input base name is non-empty (the only way `build` is
reached), the config with which the material is assembled has a non-empty
output base name; and when the supplied output base is empty or equal to the
input base, the rename step is a filesystem no-op that sets the output base
to the input base. -/
theorem C2_output_base_invariant (sep : String) (c : BuildConfig) (v : Bool) (fs : FS)
    (h : c.input_file_name ≠ "") :
    (rename_texture_files sep (mapsOf c) c v fs).1.output_file_name ≠ "" ∧
    (build sep c v fs).config.output_file_name ≠ "" ∧
    ((c.output_file_name = "" ∨ c.output_file_name = c.input_file_name) →
      (rename_texture_files sep (mapsOf c) c v fs).1.output_file_name = c.input_file_name ∧
      (rename_texture_files sep (mapsOf c) c v fs).2.1 = fs) := by
  have hrtf : (rename_texture_files sep (mapsOf c) c v fs).1.output_file_name ≠ "" := by
    unfold rename_texture_files
    by_cases hc : c.output_file_name = "" ∨ c.output_file_name = c.input_file_name
    · rw [if_pos hc]
      exact h
    · rw [if_neg hc]
      exact fun h0 => hc (Or.inl h0)
  refine ⟨hrtf, hrtf, fun hc => ?_⟩
  unfold rename_texture_files
  rw [if_pos hc]
  exact ⟨rfl, rfl⟩

/-- Witness for C2 at a concrete run (`-f base`, no `-o`). -/
theorem C2_output_base_invariant_witness :
    ({ input_file_name := "base", textures_dir_path := "/t" : BuildConfig}.input_file_name ≠ "") ∧
    (rename_texture_files "/"
        (mapsOf { input_file_name := "base", textures_dir_path := "/t" })
        { input_file_name := "base", textures_dir_path := "/t" } false []).1.output_file_name
      = "base" ∧
    (rename_texture_files "/"
        (mapsOf { input_file_name := "base", textures_dir_path := "/t" })
        { input_file_name := "base", textures_dir_path := "/t" } false []).2.1 = [] := by
  have h := C2_output_base_invariant "/"
    { input_file_name := "base", textures_dir_path := "/t" } false [] (by decide)
  exact ⟨by decide, (h.2.2 (Or.inl rfl)).1, (h.2.2 (Or.inl rfl)).2⟩

/-- C8: with `-h` among the parsed options, or with an empty parsed option
list, the program prints the usage text and exits 0, leaving the filesystem
untouched and writing no material file. -/
theorem C8_help_path (sep cwd : String) (argv : List String) (fs : FS)
    (opts : List (String × String)) (rest : List String)
    (hp : pygetopt argv = .ok (opts, rest))
    (h : opts = [] ∨ "-h" ∈ opts.map Prod.fst) :
    mainRun sep cwd argv fs = ⟨0, fs, [], helpLog⟩ := by
  have hm : mainRun sep cwd argv fs = runFromOpts sep cwd opts fs := by
    unfold mainRun
    rw [hp]
  rw [hm]
  rcases h with rfl | hh
  · rfl
  · unfold runFromOpts
    by_cases he : opts.isEmpty
    · rw [if_pos he]
    · rw [if_neg he, processOpts_none_of_h hh]

/-- Witness for C8: the concrete runs `-h` and `(no arguments)`. -/
theorem C8_help_path_witness :
    mainRun "/" "/t" ["-h"] ["f.tiff"] = ⟨0, ["f.tiff"], [], helpLog⟩ ∧
    mainRun "/" "/t" [] ["f.tiff"] = ⟨0, ["f.tiff"], [], helpLog⟩ := by
  constructor
  · exact C8_help_path "/" "/t" ["-h"] ["f.tiff"] [("-h", "")] [] rfl
      (Or.inr (by decide))
  · exact C8_help_path "/" "/t" [] ["f.tiff"] [] [] rfl (Or.inl rfl)

/-- Counterexample to C7 as stated: `--dif -h` parses successfully, contains
an option other than `-h`, and leaves the input base name empty, yet the
program exits 0 (help), not 1, and prints no error. -/
theorem C7_counterexample :
    (mainRun "/" "/t" ["--dif", "-h"] []).exitCode = 0 ∧
    (mainRun "/" "/t" ["--dif", "-h"] []).written = [] ∧
    (mainRun "/" "/t" ["--dif", "-h"] []).log = helpLog := by
  exact ⟨rfl, rfl, rfl⟩

/-- C7 (amended): on malformed option syntax, or on a successful parse with
a non-empty option list that contains no `-h` and leaves the input base name
empty, the program prints the usage-error message and exits 1 with no
filesystem mutation and no material file written.  (The original claim also
covered option lists that contain `-h` next to other options, but those exit
0 via the help path.) -/
theorem C7_usage_error_no_mutation (sep cwd : String) (argv : List String) (fs : FS) :
    (∀ msg, pygetopt argv = .error msg → mainRun sep cwd argv fs = ⟨1, fs, [], errorLog⟩) ∧
    (∀ opts rest c v, pygetopt argv = .ok (opts, rest) → opts ≠ [] →
      processOpts (initConfig cwd) false opts = some (c, v) → c.input_file_name = "" →
      mainRun sep cwd argv fs = ⟨1, fs, [], errorLog⟩) := by
  constructor
  · intro msg hp
    unfold mainRun
    rw [hp]
  · intro opts rest c v hp hne hpo hin
    have hm : mainRun sep cwd argv fs = runFromOpts sep cwd opts fs := by
      unfold mainRun
      rw [hp]
    rw [hm]
    unfold runFromOpts
    rw [if_neg (by simpa [List.isEmpty_iff] using hne), hpo]
    exact if_pos hin

/-- Witness for C7 (amended): the malformed run `-f` (missing argument) and
the well-formed run `--dif` without `-f`. -/
theorem C7_usage_error_no_mutation_witness :
    mainRun "/" "/t" ["-f"] ["f.tiff"] = ⟨1, ["f.tiff"], [], errorLog⟩ ∧
    mainRun "/" "/t" ["--dif"] ["f.tiff"] = ⟨1, ["f.tiff"], [], errorLog⟩ := by
  constructor
  · exact (C7_usage_error_no_mutation "/" "/t" ["-f"] ["f.tiff"]).1
      "option requires argument" rfl
  · exact (C7_usage_error_no_mutation "/" "/t" ["--dif"] ["f.tiff"]).2
      [("--dif", "")] [] { initConfig "/t" with export_dif := true } false rfl
      (by decide) rfl rfl

/-- Counterexample to C9 as stated: the argument vectors `[]` and `["-v"]`
differ only in the presence of `-v`, yet the first exits 0 (help) and the
second exits 1 (usage error), and their printed output differs beyond
`[V]` lines. -/
theorem C9_counterexample :
    (mainRun "/" "/t" ["-v"] []).exitCode = 1 ∧
    (mainRun "/" "/t" [] []).exitCode = 0 ∧
    (mainRun "/" "/t" ["-v"] []).log = errorLog ∧
    (mainRun "/" "/t" [] []).log = helpLog := by
  exact ⟨rfl, rfl, rfl, rfl⟩

theorem isVerboseLine_renameMsg (name file m : String) :
    isVerboseLine (renameMsg name file m) = false := rfl

theorem isVerboseLine_materialMsg (name file m : String) :
    isVerboseLine (materialMsg name file m) = false := rfl

theorem isVerboseLine_v1 : isVerboseLine "[V] Building material file..." = true := by decide

theorem isVerboseLine_v2 :
    isVerboseLine "    [V] Skipping texture files renaming." = true := by decide

theorem isVerboseLine_v3 : isVerboseLine "    [V] Renaming texture files..." = true := by decide

theorem isVerboseLine_v4 : isVerboseLine "    [V] Texture files renamed." = true := by decide

theorem isVerboseLine_v5 :
    isVerboseLine "[V] Material file build process complete." = true := by decide

theorem mmLoop_log_filter (sep : String) (c : BuildConfig) (fs : FS) (l : List MapEntry) :
    ((mmLoop sep c fs l).2).filter (fun x => !(isVerboseLine x)) = (mmLoop sep c fs l).2 := by
  induction l with
  | nil => rfl
  | cons e rest ih =>
    simp only [mmLoop]
    by_cases hen : e.enabled = true
    · by_cases hex : fsExists fs (newPath sep c e) = true
      · rw [if_pos hen, if_pos hex]
        exact ih
      · rw [if_pos hen, if_neg hex]
        dsimp only
        rw [List.filter_cons_of_pos (by rw [isVerboseLine_materialMsg]; rfl), ih]
    · rw [if_neg hen]
      exact ih

theorem renameLoop_log_filter (sep : String) (c : BuildConfig) (l : List MapEntry) (fs : FS) :
    ((renameLoop sep c l fs).2).filter (fun x => !(isVerboseLine x))
      = (renameLoop sep c l fs).2 := by
  induction l generalizing fs with
  | nil => rfl
  | cons e rest ih =>
    simp only [renameLoop]
    by_cases hen : e.enabled = true
    · by_cases hex : fsExists fs (oldPath sep c e) = true
      · rw [if_pos hen, if_pos hex]
        exact ih _
      · rw [if_pos hen, if_neg hex]
        dsimp only
        rw [List.filter_cons_of_pos (by rw [isVerboseLine_renameMsg]; rfl), ih]
    · rw [if_neg hen]
      exact ih _

theorem build_log_filter (sep : String) (c : BuildConfig) (v : Bool) (fs : FS) :
    ((build sep c v fs).log).filter (fun l => !(isVerboseLine l))
      = (build sep c false fs).log := by
  by_cases hc : c.output_file_name = "" ∨ c.output_file_name = c.input_file_name
  · cases v <;>
      simp [build, rename_texture_files, hc, List.filter_append,
        isVerboseLine_v1, isVerboseLine_v2, isVerboseLine_v5, mmLoop_log_filter]
  · cases v <;>
      simp [build, rename_texture_files, hc, List.filter_append,
        isVerboseLine_v1, isVerboseLine_v3, isVerboseLine_v4, isVerboseLine_v5,
        mmLoop_log_filter, renameLoop_log_filter]

/-- C9 (amended): for runs whose parsed option list is non-empty even
without the `-v` entry, inserting `-v` anywhere among the parsed options
changes neither the exit code, nor the final filesystem (renames and
material write), nor the written material file, and the printed logs differ
only in the `[V]`-prefixed verbose lines (removing those lines from each log
yields the same list).  (As originally stated the claim fails for the
option-less run, which exits 0 via help while `-v` alone is a usage error
exiting 1.) -/
theorem C9_verbose_observationally_inert (sep cwd : String) (fs : FS)
    (pre post : List (String × String)) (h : pre ++ post ≠ []) :
    (runFromOpts sep cwd (pre ++ ("-v", "") :: post) fs).exitCode
      = (runFromOpts sep cwd (pre ++ post) fs).exitCode ∧
    (runFromOpts sep cwd (pre ++ ("-v", "") :: post) fs).fs
      = (runFromOpts sep cwd (pre ++ post) fs).fs ∧
    (runFromOpts sep cwd (pre ++ ("-v", "") :: post) fs).written
      = (runFromOpts sep cwd (pre ++ post) fs).written ∧
    ((runFromOpts sep cwd (pre ++ ("-v", "") :: post) fs).log).filter
        (fun l => !(isVerboseLine l))
      = ((runFromOpts sep cwd (pre ++ post) fs).log).filter
        (fun l => !(isVerboseLine l)) := by
  have hne1 : ¬ ((pre ++ ("-v", "") :: post).isEmpty = true) := by
    simp [List.isEmpty_iff]
  have hne2 : ¬ ((pre ++ post).isEmpty = true) := by
    simpa [List.isEmpty_iff] using h
  have hmap := processOpts_insert_v pre post (initConfig cwd) false
  unfold runFromOpts
  rw [if_neg hne1, if_neg hne2]
  cases h1 : processOpts (initConfig cwd) false (pre ++ ("-v", "") :: post) with
  | none =>
    rw [h1] at hmap
    cases h2 : processOpts (initConfig cwd) false (pre ++ post) with
    | none => exact ⟨rfl, rfl, rfl, rfl⟩
    | some cv2 => rw [h2] at hmap; cases hmap
  | some cv1 =>
    obtain ⟨c1, v1⟩ := cv1
    rw [h1] at hmap
    cases h2 : processOpts (initConfig cwd) false (pre ++ post) with
    | none => rw [h2] at hmap; cases hmap
    | some cv2 =>
      obtain ⟨c2, v2⟩ := cv2
      rw [h2] at hmap
      obtain rfl : c1 = c2 := by simpa using hmap
      dsimp only
      by_cases hin : c1.input_file_name = ""
      · rw [if_pos hin, if_pos hin]
        exact ⟨rfl, rfl, rfl, rfl⟩
      · rw [if_neg hin, if_neg hin]
        obtain ⟨_, hf1, hm1, ho1⟩ := build_effects_indep sep c1 v1 fs
        obtain ⟨_, hf2, hm2, ho2⟩ := build_effects_indep sep c1 v2 fs
        refine ⟨rfl, hf1.trans hf2.symm, ?_, ?_⟩
        · rw [ho1.trans ho2.symm, hm1.trans hm2.symm]
        · rw [build_log_filter, build_log_filter]

/-- Witness for C9 (amended): inserting `-v` into the parsed options of
`-f base`. -/
theorem C9_verbose_observationally_inert_witness :
    (runFromOpts "/" "/t" [("-f", "base"), ("-v", "")] []).exitCode
      = (runFromOpts "/" "/t" [("-f", "base")] []).exitCode ∧
    (runFromOpts "/" "/t" [("-f", "base"), ("-v", "")] []).fs
      = (runFromOpts "/" "/t" [("-f", "base")] []).fs ∧
    (runFromOpts "/" "/t" [("-f", "base"), ("-v", "")] []).written
      = (runFromOpts "/" "/t" [("-f", "base")] []).written ∧
    ((runFromOpts "/" "/t" [("-f", "base"), ("-v", "")] []).log).filter
        (fun l => !(isVerboseLine l))
      = ((runFromOpts "/" "/t" [("-f", "base")] []).log).filter
        (fun l => !(isVerboseLine l)) :=
  C9_verbose_observationally_inert "/" "/t" [] [("-f", "base")] [] (by decide)


theorem exportFlag_applyOpt (c : BuildConfig) (opt arg : String) (cat : MapCat) :
    exportFlag (applyOpt c opt arg) cat = (exportFlag c cat || optEnables opt cat) := by
  by_cases h1 : opt = "-f"
  · subst h1; cases cat <;> simp [applyOpt, exportFlag, optEnables, catOpt, defaultSet]
  by_cases h2 : opt = "-o"
  · subst h2; cases cat <;> simp [applyOpt, exportFlag, optEnables, catOpt, defaultSet]
  by_cases h3 : opt = "-d"
  · subst h3; cases cat <;> simp [applyOpt, exportFlag, optEnables, catOpt, defaultSet]
  by_cases h4 : opt = "-a"
  · subst h4; cases cat <;> simp [applyOpt, exportFlag, optEnables, catOpt, defaultSet]
  by_cases h5 : opt = "--occ"
  · subst h5; cases cat <;> simp [applyOpt, exportFlag, optEnables, catOpt, defaultSet]
  by_cases h6 : opt = "--cav"
  · subst h6; cases cat <;> simp [applyOpt, exportFlag, optEnables, catOpt, defaultSet]
  by_cases h7 : opt = "--dif"
  · subst h7; cases cat <;> simp [applyOpt, exportFlag, optEnables, catOpt, defaultSet]
  by_cases h8 : opt = "--dis"
  · subst h8; cases cat <;> simp [applyOpt, exportFlag, optEnables, catOpt, defaultSet]
  by_cases h9 : opt = "--emi"
  · subst h9; cases cat <;> simp [applyOpt, exportFlag, optEnables, catOpt, defaultSet]
  by_cases h10 : opt = "--met"
  · subst h10; cases cat <;> simp [applyOpt, exportFlag, optEnables, catOpt, defaultSet]
  by_cases h11 : opt = "--ddn"
  · subst h11; cases cat <;> simp [applyOpt, exportFlag, optEnables, catOpt, defaultSet]
  by_cases h12 : opt = "--rou"
  · subst h12; cases cat <;> simp [applyOpt, exportFlag, optEnables, catOpt, defaultSet]
  by_cases h13 : opt = "--default"
  · subst h13; cases cat <;> simp [applyOpt, exportFlag, optEnables, catOpt, defaultSet,
      setup_default]
  by_cases h14 : opt = "--all"
  · subst h14; cases cat <;> simp [applyOpt, exportFlag, optEnables, catOpt, defaultSet,
      setup_default, setup_all]
  · have e5 : (opt == "--occ") = false := beq_eq_false_iff_ne.mpr h5
    have e6 : (opt == "--cav") = false := beq_eq_false_iff_ne.mpr h6
    have e7 : (opt == "--dif") = false := beq_eq_false_iff_ne.mpr h7
    have e8 : (opt == "--dis") = false := beq_eq_false_iff_ne.mpr h8
    have e9 : (opt == "--emi") = false := beq_eq_false_iff_ne.mpr h9
    have e10 : (opt == "--met") = false := beq_eq_false_iff_ne.mpr h10
    have e11 : (opt == "--ddn") = false := beq_eq_false_iff_ne.mpr h11
    have e12 : (opt == "--rou") = false := beq_eq_false_iff_ne.mpr h12
    cases cat <;> simp [applyOpt, exportFlag, optEnables, catOpt, h1, h2, h3, h4, h5, h6,
      h7, h8, h9, h10, h11, h12, h13, h14, e5, e6, e7, e8, e9, e10, e11, e12]

/-- C6: processing options is monotonic in the category-enable flags (no
option ever clears a set flag), and for option lists made only of the ten
category flags the final flag assignment is the pointwise union of the sets
each flag enables, independently of order. -/
theorem C6_monotonic_union (c : BuildConfig) (v : Bool) (opts : List (String × String))
    (cat : MapCat) (c' : BuildConfig) (v' : Bool)
    (h : processOpts c v opts = some (c', v')) :
    (exportFlag c cat = true → exportFlag c' cat = true) ∧
    ((∀ o ∈ opts, o.1 ∈ flagOpts) →
      exportFlag c' cat = (exportFlag c cat || opts.any (fun o => optEnables o.1 cat))) := by
  induction opts generalizing c v with
  | nil =>
    simp only [processOpts, Option.some.injEq, Prod.mk.injEq] at h
    obtain ⟨rfl, rfl⟩ := h
    exact ⟨id, fun _ => by simp⟩
  | cons o rest ih =>
    obtain ⟨opt, arg⟩ := o
    simp only [processOpts] at h
    by_cases ho : opt = "-h"
    · rw [if_pos ho] at h; cases h
    · rw [if_neg ho] at h
      by_cases hv : opt = "-v"
      · rw [if_pos hv] at h
        obtain ⟨h1, h2⟩ := ih _ _ h
        refine ⟨h1, fun hall => ?_⟩
        have hrest : ∀ o ∈ rest, o.1 ∈ flagOpts :=
          fun o hm => hall o (List.mem_cons_of_mem _ hm)
        rw [h2 hrest]
        subst hv
        have hnone : optEnables "-v" cat = false := by cases cat <;> rfl
        simp [hnone]
      · rw [if_neg hv] at h
        obtain ⟨h1, h2⟩ := ih _ _ h
        refine ⟨fun hm => h1 (by rw [exportFlag_applyOpt, hm]; simp), fun hall => ?_⟩
        have hrest : ∀ o ∈ rest, o.1 ∈ flagOpts :=
          fun o hm => hall o (List.mem_cons_of_mem _ hm)
        rw [h2 hrest, exportFlag_applyOpt]
        simp [Bool.or_assoc]

/-- Witness for C6 at a concrete run: `--occ` stays enabled after `--dif`,
and `--dif --occ` enables exactly the union. -/
theorem C6_monotonic_union_witness :
    exportFlag
      (applyOpt (applyOpt { initConfig "/t" with export_occ := true } "--dif" "") "--occ" "")
      MapCat.occ = true ∧
    exportFlag
      (applyOpt (applyOpt { initConfig "/t" with export_occ := true } "--dif" "") "--occ" "")
      MapCat.dif
      = (exportFlag { initConfig "/t" with export_occ := true } MapCat.dif ||
          ([("--dif", ""), ("--occ", "")] : List (String × String)).any
            (fun o => optEnables o.1 MapCat.dif)) := by
  constructor
  · exact (C6_monotonic_union { initConfig "/t" with export_occ := true } false
      [("--dif", ""), ("--occ", "")] MapCat.occ _ false rfl).1 rfl
  · exact (C6_monotonic_union { initConfig "/t" with export_occ := true } false
      [("--dif", ""), ("--occ", "")] MapCat.dif _ false rfl).2 (by decide)

/-- C1: the run `-f base --dif --met` with the default textures directory
(the working directory `cwd`) and default assets root, with exactly
`base_albedo.tiff` and `base_metalness.tiff` present there, writes
`base.material` containing exactly the two constant fields and the two
property values `Assets/base_albedo.tiff` and `Assets/base_metalness.tiff`,
with forward slashes on either host path convention (`sep` the host
separator). -/
theorem C1_standard_run (sep cwd : String) (hsep : sep = "/" ∨ sep = "\\") :
    mainRun sep cwd ["-f", "base", "--dif", "--met"]
        [pathJoin sep cwd "base_albedo.tiff", pathJoin sep cwd "base_metalness.tiff"]
      = { exitCode := 0,
          fs := [pathJoin sep cwd "base.material",
                 pathJoin sep cwd "base_albedo.tiff",
                 pathJoin sep cwd "base_metalness.tiff"],
          written := [(pathJoin sep cwd "base.material",
            { materialType := "Materials/Types/StandardPBR.materialtype",
              materialTypeVersion := 4,
              propertyValues := [("baseColor.textureMap", "Assets/base_albedo.tiff"),
                                 ("metallic.textureMap", "Assets/base_metalness.tiff")] })],
          log := [] } := by
  have hne : pathJoin sep cwd "base_metalness.tiff" ≠ pathJoin sep cwd "base_albedo.tiff" :=
    pathJoin_tail_ne (s := "_metalness.tiff") (t := "_albedo.tiff") sep cwd cwd "base" "base"
      (by decide) (by decide)
  have hpg : pygetopt ["-f", "base", "--dif", "--met"]
      = .ok ([("-f", "base"), ("--dif", ""), ("--met", "")], []) := rfl
  have hm : mainRun sep cwd ["-f", "base", "--dif", "--met"]
        [pathJoin sep cwd "base_albedo.tiff", pathJoin sep cwd "base_metalness.tiff"]
      = runFromOpts sep cwd [("-f", "base"), ("--dif", ""), ("--met", "")]
        [pathJoin sep cwd "base_albedo.tiff", pathJoin sep cwd "base_metalness.tiff"] := by
    unfold mainRun
    rw [hpg]
  rw [hm]
  have hpo : processOpts (initConfig cwd) false [("-f", "base"), ("--dif", ""), ("--met", "")]
      = some (⟨false, false, true, false, false, true, false, false, "base", "", cwd, "Assets"⟩,
          false) := rfl
  unfold runFromOpts
  rw [if_neg (by decide), hpo]
  rcases hsep with rfl | rfl <;>
  · simp [build, rename_texture_files, mmLoop, mapsOf, fsExists, newPath, oldPath,
      make_file_map_name, make_map_name, make_asset_map_name, replaceBackslashes,
      fsWrite, hne, List.contains_cons]
    exact ⟨by decide, by decide⟩

/-- Witness for C1 on the POSIX separator with `/t` as working directory. -/
theorem C1_standard_run_witness :
    mainRun "/" "/t" ["-f", "base", "--dif", "--met"]
        ["/t/base_albedo.tiff", "/t/base_metalness.tiff"]
      = { exitCode := 0,
          fs := ["/t/base.material", "/t/base_albedo.tiff", "/t/base_metalness.tiff"],
          written := [("/t/base.material",
            { materialType := "Materials/Types/StandardPBR.materialtype",
              materialTypeVersion := 4,
              propertyValues := [("baseColor.textureMap", "Assets/base_albedo.tiff"),
                                 ("metallic.textureMap", "Assets/base_metalness.tiff")] })],
          log := [] } :=
  C1_standard_run "/" "/t" (Or.inl rfl)

/-! ## Rename-step effects on individual files -/

theorem fsExists_fsWrite_keep {fs : FS} {q p : String} (h : fsExists fs p = true) :
    fsExists (fsWrite fs q) p = true := fsExists_fsWrite.mpr (Or.inr h)

theorem fsExists_fsWrite_absent {fs : FS} {q p : String}
    (h1 : fsExists fs p = false) (h2 : p ≠ q) : fsExists (fsWrite fs q) p = false := by
  cases hb : fsExists (fsWrite fs q) p with
  | false => rfl
  | true =>
    rcases fsExists_fsWrite.mp hb with h | h
    · exact absurd h h2
    · rw [h1] at h; cases h

theorem mapsOf_disj {sep : String} {c : BuildConfig} {e : MapEntry} (he : e ∈ mapsOf c) :
    ∀ e' ∈ mapsOf c, e'.suffix ≠ e.suffix →
      oldPath sep c e ≠ oldPath sep c e' ∧ oldPath sep c e ≠ newPath sep c e' ∧
      newPath sep c e ≠ oldPath sep c e' ∧ newPath sep c e ≠ newPath sep c e' := by
  intro e' he' hs
  have hm := mapsOf_suffix_mem he
  have hm' := mapsOf_suffix_mem he'
  have h1 : e.suffix ≠ e'.suffix := fun hq => hs hq.symm
  exact ⟨make_file_map_name_ne sep c c _ _ hm hm' h1,
    make_file_map_name_ne sep c c _ _ hm hm' h1,
    make_file_map_name_ne sep c c _ _ hm hm' h1,
    make_file_map_name_ne sep c c _ _ hm hm' h1⟩

theorem build_nonskip (sep : String) (c : BuildConfig) (v : Bool) (fs : FS)
    (hns : ¬(c.output_file_name = "" ∨ c.output_file_name = c.input_file_name)) :
    (build sep c v fs).config = c ∧
    (build sep c v fs).fs = fsWrite (renameLoop sep c (mapsOf c) fs).1
        (pathJoin sep c.textures_dir_path (c.output_file_name ++ ".material")) ∧
    (build sep c v fs).material.propertyValues
      = (mmLoop sep c (renameLoop sep c (mapsOf c) fs).1 (mapsOf c)).1 ∧
    (∀ x, x ∈ (renameLoop sep c (mapsOf c) fs).2 → x ∈ (build sep c v fs).log) ∧
    (∀ x, x ∈ (mmLoop sep c (renameLoop sep c (mapsOf c) fs).1 (mapsOf c)).2
      → x ∈ (build sep c v fs).log) := by
  simp only [build, rename_texture_files, eq_false hns, if_false, List.mem_append]
  refine ⟨trivial, trivial, trivial, ?_, ?_⟩ <;> intro x h <;> tauto

/-- Counterexample to C3 as stated: with input base `/x`, output base `x`
and textures directory `/`, the claim's hypotheses hold (distinct non-empty
output base, enabled category, source file present), yet after the run the
source file name is still present: `os.path.join` returns an absolute second
argument unchanged, so the rename's source and destination coincide and the
file is not moved. -/
theorem C3_counterexample :
    (aliasConfig.output_file_name ≠ "" ∧
     aliasConfig.output_file_name ≠ aliasConfig.input_file_name ∧
     aoEntry ∈ mapsOf aliasConfig ∧ aoEntry.enabled = true ∧
     fsExists ["/x_ao.tiff"] (oldPath "/" aliasConfig aoEntry) = true) ∧
    oldPath "/" aliasConfig aoEntry = newPath "/" aliasConfig aoEntry ∧
    fsExists (build "/" aliasConfig false ["/x_ao.tiff"]).fs
      (oldPath "/" aliasConfig aoEntry) = true := by
  decide

/-- C3 (amended): for a run with a distinct non-empty output base, every
enabled category whose input-named source file exists is moved — old name
absent, new name present after the run — and the written material references
the new name, provided the resolved source and destination paths differ as
strings (they can coincide only when a base name starts with the path
separator, making `os.path.join` ignore the directory); and an enabled
category whose source file does not exist is diagnosed and skipped without
aborting the run (the first part holds for any state of the other
categories' files, so one missing file never blocks the others). -/
theorem C3_rename_moves_files (sep : String) (c : BuildConfig) (v : Bool) (fs : FS)
    (e : MapEntry)
    (h0 : c.output_file_name ≠ "") (h1 : c.output_file_name ≠ c.input_file_name)
    (he : e ∈ mapsOf c) (hen : e.enabled = true) :
    (fsExists fs (oldPath sep c e) = true → oldPath sep c e ≠ newPath sep c e →
      fsExists (build sep c v fs).fs (oldPath sep c e) = false ∧
      fsExists (build sep c v fs).fs (newPath sep c e) = true ∧
      (e.key, replaceBackslashes (make_asset_map_name sep c e.suffix))
        ∈ (build sep c v fs).material.propertyValues) ∧
    (fsExists fs (oldPath sep c e) = false →
      renameMsg e.name c.output_file_name e.suffix ∈ (build sep c v fs).log) := by
  have hns : ¬(c.output_file_name = "" ∨ c.output_file_name = c.input_file_name) := by
    rintro (h | h)
    exacts [h0 h, h1 h]
  obtain ⟨hcfg, hfs, hpv, hlog1, hlog2⟩ := build_nonskip sep c v fs hns
  constructor
  · intro hex hne
    obtain ⟨hnew, hold⟩ := renameLoop_moves (mapsOf c) fs mapsOf_pairwise_suffix
      (mapsOf_disj he) he hen hex hne
    refine ⟨?_, ?_, ?_⟩
    · rw [hfs]
      exact fsExists_fsWrite_absent hold
        (make_file_map_name_ne_material sep c _ _ _ (mapsOf_suffix_mem he))
    · rw [hfs]
      exact fsExists_fsWrite_keep hnew
    · rw [hpv]
      exact (mmLoop_pv_mem (mapsOf c) _ _).mpr ⟨e, he, hen, hnew, rfl, rfl⟩
  · intro hnex
    have hmsg := renameLoop_msg (mapsOf c) fs mapsOf_pairwise_suffix
      (fun e' he' hs => ((mapsOf_disj he e' he' hs).2.1).symm) he hen hnex
    exact hlog1 _ hmsg

/-- Witness for C3 (amended): a run with input base `in`, output base `out`,
where the ambient-occlusion file exists and is moved and referenced, and a
run where the enabled cavity file is missing and diagnosed. -/
theorem C3_rename_moves_files_witness :
    fsExists (build "/" moveConfig false ["/t/in_ao.tiff"]).fs "/t/in_ao.tiff" = false ∧
    fsExists (build "/" moveConfig false ["/t/in_ao.tiff"]).fs "/t/out_ao.tiff" = true ∧
    ("occlusion.diffuseTextureMap", "Assets/out_ao.tiff")
      ∈ (build "/" moveConfig false ["/t/in_ao.tiff"]).material.propertyValues ∧
    renameMsg "Specular Cavity" "out" "cavity"
      ∈ (build "/" moveConfig2 false ["/t/in_ao.tiff"]).log := by
  have h1 := C3_rename_moves_files "/" moveConfig false ["/t/in_ao.tiff"] aoEntry
    (by decide) (by decide) (by decide) rfl
  have h2 := C3_rename_moves_files "/" moveConfig2 false ["/t/in_ao.tiff"] cavEntry
    (by decide) (by decide) (by decide) rfl
  obtain ⟨ha, hb, hc⟩ := h1.1 (by decide) (by decide)
  exact ⟨ha, hb, hc, h2.2 (by decide)⟩

/-- C10: when an enabled category's source file is missing during renaming
in a run with distinct input and output bases, the printed diagnostic names
the file after the output base, although the file checked and found missing
is named after the input base; the two names always differ. -/
theorem C10_diagnostic_names_output_base (sep : String) (c : BuildConfig) (v : Bool)
    (fs : FS) (e : MapEntry)
    (h0 : c.output_file_name ≠ "") (h1 : c.output_file_name ≠ c.input_file_name)
    (he : e ∈ mapsOf c) (hen : e.enabled = true)
    (hnex : fsExists fs (oldPath sep c e) = false) :
    renameMsg e.name c.output_file_name e.suffix ∈ (build sep c v fs).log ∧
    make_map_name c.output_file_name e.suffix ≠ make_map_name c.input_file_name e.suffix := by
  have hns : ¬(c.output_file_name = "" ∨ c.output_file_name = c.input_file_name) := by
    rintro (h | h)
    exacts [h0 h, h1 h]
  obtain ⟨_, _, _, hlog1, _⟩ := build_nonskip sep c v fs hns
  constructor
  · exact hlog1 _ (renameLoop_msg (mapsOf c) fs mapsOf_pairwise_suffix
      (fun e' he' hs => ((mapsOf_disj he e' he' hs).2.1).symm) he hen hnex)
  · intro hq
    apply h1
    rw [make_map_name_eq_tail, make_map_name_eq_tail] at hq
    have hd := congrArg String.data hq
    rw [String.data_append, String.data_append] at hd
    exact String.ext (List.append_cancel_right hd)

/-- Witness for C10: input base `a`, output base `b`, diffuse category
enabled, file missing: the diagnostic names `b_albedo.tiff` while the file
checked was `a_albedo.tiff`. -/
theorem C10_diagnostic_names_output_base_witness :
    renameMsg "Diffuse Color" "b" "albedo" ∈ (build "/" c10Config false []).log ∧
    make_map_name "b" "albedo" ≠ make_map_name "a" "albedo" :=
  C10_diagnostic_names_output_base "/" c10Config false [] difEntry
    (by decide) (by decide) (by decide) rfl (by decide)

/-- C4: for every run that reaches `build`, an enabled category whose
output-named file does not exist at assembly time contributes no
`propertyValues` entry and a printed diagnostic; the run still exits 0 and
writes a material file that always carries the two constant top-level
fields. -/
theorem C4_missing_at_assembly (sep cwd : String) (argv : List String) (fs : FS)
    (opts : List (String × String)) (rest : List String) (c : BuildConfig) (v : Bool)
    (e : MapEntry)
    (hp : pygetopt argv = .ok (opts, rest))
    (hpo : processOpts (initConfig cwd) false opts = some (c, v))
    (hin : c.input_file_name ≠ "")
    (he : e ∈ mapsOf c) (hen : e.enabled = true)
    (hnex : fsExists (rename_texture_files sep (mapsOf c) c v fs).2.1
        (newPath sep (rename_texture_files sep (mapsOf c) c v fs).1 e) = false) :
    (mainRun sep cwd argv fs).exitCode = 0 ∧
    (mainRun sep cwd argv fs).written
      = [((build sep c v fs).outPath, (build sep c v fs).material)] ∧
    (build sep c v fs).material.materialType = "Materials/Types/StandardPBR.materialtype" ∧
    (build sep c v fs).material.materialTypeVersion = 4 ∧
    (∀ x, (e.key, x) ∉ (build sep c v fs).material.propertyValues) ∧
    materialMsg e.name (rename_texture_files sep (mapsOf c) c v fs).1.output_file_name e.suffix
      ∈ (build sep c v fs).log := by
  have hne : opts ≠ [] := by
    rintro rfl
    rw [show processOpts (initConfig cwd) false [] = some (initConfig cwd, false) from rfl]
      at hpo
    obtain ⟨rfl, rfl⟩ : initConfig cwd = c ∧ false = v := by simpa using hpo
    exact hin rfl
  have hm : mainRun sep cwd argv fs = runFromOpts sep cwd opts fs := by
    unfold mainRun
    rw [hp]
  have hrun : runFromOpts sep cwd opts fs
      = ⟨0, (build sep c v fs).fs,
          [((build sep c v fs).outPath, (build sep c v fs).material)],
          (build sep c v fs).log⟩ := by
    unfold runFromOpts
    rw [if_neg (by simpa [List.isEmpty_iff] using hne), hpo]
    exact if_neg hin
  have hpvmem : ∀ x, (e.key, x) ∉ (build sep c v fs).material.propertyValues := by
    intro x hx
    have hx' : (e.key, x) ∈ (mmLoop sep (rename_texture_files sep (mapsOf c) c v fs).1
        (rename_texture_files sep (mapsOf c) c v fs).2.1 (mapsOf c)).1 := hx
    obtain ⟨e', he', hen', hex', hk, _⟩ := (mmLoop_pv_mem (mapsOf c) e.key x).mp hx'
    obtain rfl : e' = e := mapsOf_key_inj he' he hk.symm
    rw [hnex] at hex'
    cases hex'
  have hmsg : materialMsg e.name
      (rename_texture_files sep (mapsOf c) c v fs).1.output_file_name e.suffix
      ∈ (build sep c v fs).log := by
    have hmm := mmLoop_msg_mem (mapsOf c) he hen hnex
    simp only [build, List.mem_append]
    tauto
  exact ⟨by rw [hm, hrun], by rw [hm, hrun], rfl, rfl, hpvmem, hmsg⟩

/-- Witness for C4: the run `-f base --dif` with no files present. -/
theorem C4_missing_at_assembly_witness :
    (mainRun "/" "/t" ["-f", "base", "--dif"] []).exitCode = 0 ∧
    (mainRun "/" "/t" ["-f", "base", "--dif"] []).written
      = [((build "/" c4Config false []).outPath, (build "/" c4Config false []).material)] ∧
    (build "/" c4Config false []).material.materialType
      = "Materials/Types/StandardPBR.materialtype" ∧
    (build "/" c4Config false []).material.materialTypeVersion = 4 ∧
    (∀ x, ("baseColor.textureMap", x)
      ∉ (build "/" c4Config false []).material.propertyValues) ∧
    materialMsg "Diffuse Color" "base" "albedo" ∈ (build "/" c4Config false []).log :=
  C4_missing_at_assembly "/" "/t" ["-f", "base", "--dif"] []
    [("-f", "base"), ("--dif", "")] [] c4Config false difEntry rfl rfl
    (by decide) (by decide) rfl (by decide)
